import Mathlib

/-!
Verification of the PeerGuard signalling/dataplane core against its
natural-language specification.  The definitions below are a shallow
embedding of the Go source (packages `disco`, `p2p`, `peer`, `peermap`):
bytes are `Nat` values below 256, Go byte strings are `List Nat`, Go maps
are association lists, durations and timestamps are `Int` nanoseconds,
and fallible Go operations (slice indexing that may panic) return
`Except`.
-/

/-- Association-list lookup, modelling Go map read `m[k]`. -/
def lookupK {α β : Type} [DecidableEq α] : List (α × β) → α → Option β
  | [], _ => none
  | (k, v) :: rest, k' => if k' = k then some v else lookupK rest k'

/-- Association-list key removal, modelling Go `delete(m, k)`. -/
def eraseK {α β : Type} [DecidableEq α] (m : List (α × β)) (k : α) : List (α × β) :=
  m.filter (fun kv => decide (kv.1 ≠ k))

/-- Association-list in-place value update for an existing key. -/
def updateK {α β : Type} [DecidableEq α] (m : List (α × β)) (k : α) (v : β) : List (α × β) :=
  m.map (fun kv => if kv.1 = k then (k, v) else kv)

/-- Association-list put, modelling Go map assignment `m[k] = v`. -/
def putK {α β : Type} [DecidableEq α] (m : List (α × β)) (k : α) (v : β) : List (α × β) :=
  match lookupK m k with
  | some _ => updateK m k v
  | none => m ++ [(k, v)]

/-! ## Package `disco`: NAT types and the `_ping` discriminator -/

/-- NATType constants from `disco.go` (Go `NATType` is a string type). -/
def natTypes : List String := ["", "easy", "hard", "upnp", "ip4", "ip6", "internal"]

/-- Embedding of `NATType.AccurateThan` from `disco.go`: the exact chain of
early-return comparisons of the Go method. -/
def accurateThan (t t1 : String) : Bool :=
  if t = "" then false
  else if t = t1 then false
  else if t = "easy" ∧ t1 ≠ "" then false
  else if t = "hard" ∧ ¬ ([(""), "easy"].contains t1) then false
  else true

/-- Precision rank of a NATType under the specification's order
`unknown < easy < (hard, upnp, ip4, ip6, internal)`. -/
def natRank (t : String) : Nat :=
  if t = "" then 0 else if t = "easy" then 1 else 2

/-- Predicate following the specification's words: `t` is strictly more
precise than `t1` in the order `unknown < easy < top class`. -/
def specMorePrecise (t t1 : String) : Bool :=
  decide (natRank t1 < natRank t)

/-- Default ping magic, the ASCII bytes of the string `_ping`. -/
def defaultPingMagic : List Nat := [95, 112, 105, 110, 103]

/-- Embedding of `disco.Disco`: the `Magic func() []byte` field is
modelled by its result, `none` standing for a nil function. -/
structure Disco where
  magicFn : Option (List Nat)
deriving DecidableEq, Repr

/-- Embedding of the private method `Disco.magic` from `disco.go`. -/
def Disco.magicBytes (d : Disco) : List Nat :=
  let m := match d.magicFn with
    | some f => f
    | none => []
  if m.length = 0 then defaultPingMagic else m

/-- Embedding of `Disco.NewPing`: `magic || peerID`. -/
def Disco.newPing (d : Disco) (peerID : List Nat) : List Nat :=
  d.magicBytes ++ peerID

/-- Embedding of `Disco.ParsePing` from `disco.go`. -/
def Disco.parsePing (d : Disco) (b : List Nat) : List Nat :=
  let magic := d.magicBytes
  if b.length ≤ magic.length ∨ b.length > 255 + magic.length then []
  else if b.take magic.length = magic then b.drop magic.length
  else []

/-! ## Package `p2p`: frame assembly and obfuscation -/

/-- Frame assembled by `PeerPacketConn.writeTo`: control byte, address
length byte (`PeerID.Len()` is `byte(len(id))`, hence mod 256), address
bytes, payload, every byte XORed with the session nonce. -/
def writeToFrame (action : Nat) (tgtPeer p : List Nat) (nonce : Nat) : List Nat :=
  ((action :: tgtPeer.length % 256 :: tgtPeer) ++ p).map (fun v => v ^^^ nonce)

/-! ## Go slice semantics

Go slice expressions `b[i]` and `b[i:j]` panic when out of range; the
embedding makes the fault explicit. -/

/-- Runtime fault of a Go slice expression. -/
inductive GoFault where
  | indexOutOfRange
deriving DecidableEq, Repr

/-- Go indexing `b[i]`: faults when `i ≥ len(b)`. -/
def goIndex (b : List Nat) (i : Nat) : Except GoFault Nat :=
  if h : i < b.length then .ok (b.get ⟨i, h⟩) else .error .indexOutOfRange

/-- Go slicing `b[i:j]`: faults when `j > len(b)` or `i > j`. -/
def goSlice (b : List Nat) (i j : Nat) : Except GoFault (List Nat) :=
  if i ≤ j ∧ j ≤ b.length then .ok ((b.take j).drop i) else .error .indexOutOfRange

/-! ## Package `p2p`: agent-side peer state -/

/-- Embedding of `net.UDPAddr` restricted to the fields the agent
compares (`IP.Equal` and `Port`). -/
structure UDPAddr where
  ip : List Nat
  port : Nat
deriving DecidableEq, Repr

/-- Embedding of `p2p.PeerContext`: the dedicated UDP socket is modelled
by an opaque identifier, timestamps are `Int` nanoseconds with the Go
zero time at 0. -/
structure PeerContext where
  addr : Option UDPAddr
  conn : Nat
  lastValidTime : Int
  updateTime : Int
deriving DecidableEq, Repr

/-- The agent's `peersMap` field, a Go map from PeerID to context. -/
abbrev PeersMap : Type := List (List Nat × PeerContext)

/-- Event operations of the agent's peer-event engine. -/
inductive PeerOp where
  | disco1
  | disco2
  | confirm
  | healthcheck
deriving DecidableEq, Repr

/-- Embedding of `p2p.PeerEvent`. -/
structure PeerEvent where
  op : PeerOp
  addr : Option UDPAddr
  conn : Nat
  peerID : List Nat
deriving DecidableEq, Repr

/-- Nanoseconds in `time.Second`. -/
def nanosPerSecond : Int := 1000000000

/-- Timer duration used by `OP_PEER_DISCO1` and `runPeersHealthcheck`:
`peerKeepaliveInterval/2 + time.Second`. -/
def healthcheckResetInterval (keepalive : Int) : Int :=
  keepalive / 2 + nanosPerSecond

/-- Observable result of one `handlePeerEvent` call: the new peers map,
the UDP sockets closed, the timer reset duration when the timer was
reset, and whether a deferred retry of the event was scheduled. -/
structure EventResult where
  peersMap : PeersMap
  closedConns : List Nat
  timerReset : Option Int
  retry : Bool

/-- Embedding of `PeerPacketConn.handlePeerEvent` from `disco.go`:
`now` is the current time and `keepalive` the node's
`peerKeepaliveInterval`, both in nanoseconds. -/
def handlePeerEvent (now keepalive : Int) (e : PeerEvent) (m : PeersMap) : EventResult :=
  match e.op with
  | .disco1 =>
    match lookupK m e.peerID with
    | some old =>
      { peersMap := eraseK m e.peerID ++
          [(e.peerID, { addr := old.addr, conn := e.conn, lastValidTime := 0, updateTime := 0 })],
        closedConns := [old.conn],
        timerReset := some (healthcheckResetInterval keepalive),
        retry := false }
    | none =>
      { peersMap := m ++
          [(e.peerID, { addr := none, conn := e.conn, lastValidTime := 0, updateTime := 0 })],
        closedConns := [],
        timerReset := some (healthcheckResetInterval keepalive),
        retry := false }
  | .disco2 =>
    match lookupK m e.peerID with
    | some ctx =>
      { peersMap := updateK m e.peerID { ctx with addr := e.addr },
        closedConns := [], timerReset := none, retry := false }
    | none =>
      { peersMap := m, closedConns := [], timerReset := none, retry := true }
  | .confirm =>
    match lookupK m e.peerID with
    | some ctx =>
      { peersMap := updateK m e.peerID { ctx with lastValidTime := now, addr := e.addr },
        closedConns := [], timerReset := none, retry := false }
    | none =>
      { peersMap := m, closedConns := [], timerReset := none, retry := false }
  | .healthcheck =>
    { peersMap := m.filter (fun kv => decide (now - kv.2.lastValidTime ≤ 2 * keepalive)),
      closedConns :=
        (m.filter (fun kv => decide (now - kv.2.lastValidTime > 2 * keepalive))).map
          (fun kv => kv.2.conn),
      timerReset := none,
      retry := false }

/-- Embedding of `PeerPacketConn.peerConnected`: the context exists and
`time.Since(LastValidTime) ≤ 2*keepalive`. -/
def peerConnected (m : PeersMap) (now keepalive : Int) (peerID : List Nat) : Bool :=
  match lookupK m peerID with
  | some ctx => decide (now - ctx.lastValidTime ≤ 2 * keepalive)
  | none => false

/-- Observable effect of one `PeerPacketConn.WriteTo` call. -/
inductive WriteAction where
  | udp (conn : Nat) (addr : UDPAddr) (payload : List Nat)
  | relay (frame : List Nat)
  | closedPipeError
deriving DecidableEq, Repr

/-- Embedding of `PeerPacketConn.WriteTo` (with a PeerID address) and of
the helpers `writeToUDP` and `writeTo` it delegates to. -/
def pcWriteTo (m : PeersMap) (now keepalive : Int) (nonce : Nat)
    (p tgtPeer : List Nat) : WriteAction :=
  if peerConnected m now keepalive tgtPeer then
    match lookupK m tgtPeer with
    | some ctx =>
      match ctx.addr with
      | some a => .udp ctx.conn a p
      | none => .closedPipeError
    | none => .closedPipeError
  else
    .relay (writeToFrame 0 tgtPeer p nonce)

/-- Embedding of `PeerPacketConn.getPeerID`: the first live context whose
UDP address equals the datagram's source address; the empty PeerID when
none matches or the address is nil. -/
def getPeerID (m : PeersMap) (now keepalive : Int) (udpAddr : Option UDPAddr) : List Nat :=
  match udpAddr with
  | none => []
  | some a =>
    match m.find? (fun kv =>
      match kv.2.addr with
      | none => false
      | some va =>
        decide (now - kv.2.lastValidTime ≤ 2 * keepalive) &&
          decide (va.ip = a.ip) && decide (va.port = a.port)) with
    | some kv => kv.1
    | none => []

/-- Action taken by one iteration of `runReadUDPLoop` on a received
datagram. -/
inductive UdpAction where
  | confirmEvt (peerID : List Nat) (addr : UDPAddr)
  | stunOut (bytes : List Nat)
  | enqueue (frame : List Nat)
deriving DecidableEq, Repr

/-- Embedding of the body of `PeerPacketConn.runReadUDPLoop` for one
datagram `data` from `src`.  The external `stun.Is` discriminator is a
parameter. -/
def udpLoopBody (m : PeersMap) (now keepalive : Int) (stunIs : List Nat → Bool)
    (src : UDPAddr) (data : List Nat) : UdpAction :=
  if data.length > 4 ∧ data.take 5 = defaultPingMagic ∧ data.length ≤ 260 then
    .confirmEvt (data.drop 5) src
  else if stunIs data then
    .stunOut data
  else
    let peerID := getPeerID m now keepalive (some src)
    .enqueue (0 :: peerID.length % 256 :: (peerID ++ data))

/-- Embedding of the frame deconstruction in `PeerPacketConn.ReadFrom`:
`addr = b[2 : b[1]+2]` and the payload `b[b[1]+2:]`, with Go slice
semantics. -/
def readFromExtract (b : List Nat) : Except GoFault (List Nat × List Nat) :=
  match goIndex b 1 with
  | .error e => .error e
  | .ok b1 =>
    match goSlice b 2 (b1 + 2) with
    | .error e => .error e
    | .ok addr =>
      match goSlice b (b1 + 2) b.length with
      | .error e => .error e
      | .ok payload => .ok (addr, payload)

/-! ## Package `peermap`: server-side sessions and the read loop -/

/-- Server-side view of a peer session (`peermap.Peer`): its id, its
metadata modelled as the list of present keys plus the bytes of
`metadata.Encode()`, and its obfuscation nonce. -/
structure SrvPeer where
  id : List Nat
  metaKeys : List String
  metaEncoded : List Nat
  nonce : Nat
deriving DecidableEq, Repr

/-- NEW_PEER frame built by `Peer.leadDisco` about peer `src`:
`CONTROL_NEW_PEER`, the id length byte, the id, then the encoded
metadata (before nonce obfuscation by `Peer.write`). -/
def newPeerFrame (src : SrvPeer) : List Nat :=
  1 :: src.id.length % 256 :: (src.id ++ src.metaEncoded)

/-- Embedding of `Peer.leadDisco`: one NEW_PEER write to the target
about `p` and one write to `p` about the target, as
(receiver id, plain frame) pairs. -/
def leadDisco (p target : SrvPeer) : List (List Nat × List Nat) :=
  [(target.id, newPeerFrame p), (p.id, newPeerFrame target)]

/-- Embedding of the broadcast part of `Peer.Start`: the NEW_PEER writes
performed when peer `p` of network `network` starts, given the
network's current peer directory. -/
def peerStartBroadcast (publicNetwork network : String) (p : SrvPeer)
    (peers : List (List Nat × SrvPeer)) : List (List Nat × List Nat) :=
  if p.metaKeys.contains "silenceMode" then []
  else if publicNetwork = network then []
  else
    (peers.filter (fun kv =>
        decide (kv.1 ≠ p.id) && ! kv.2.metaKeys.contains "silenceMode")).flatMap
      (fun kv => leadDisco p kv.2)

/-- Dispatch outcome of one binary frame in `Peer.readMessageLoop`
(after nonce de-obfuscation). -/
inductive SrvDispatch where
  | leadDiscoTo (tgt : Nat)
  | connData (bytes : List Nat)
  | forward (tgt : Nat) (rewritten : List Nat)
  | dropPeerNotFound
deriving DecidableEq, Repr

/-- Embedding of the per-frame body of `Peer.readMessageLoop`: the
session id is `selfId`, `resolve` abstracts `peerMap.getPeer` (a session
is an opaque `Nat`).  Every Go slice of the source is taken with
faulting semantics; the source has no length check before
`b[2 : b[1]+2]`. -/
def serverReadStep (selfId : List Nat) (resolve : List Nat → Option Nat)
    (b : List Nat) : Except GoFault SrvDispatch :=
  match goIndex b 0 with
  | .error e => .error e
  | .ok b0 =>
    match goIndex b 1 with
    | .error e => .error e
    | .ok b1 =>
      match goSlice b 2 (b1 + 2) with
      | .error e => .error e
      | .ok tgtPeerID =>
        match resolve tgtPeerID with
        | none => .ok .dropPeerNotFound
        | some tgt =>
          if b0 = 3 then .ok (.leadDiscoTo tgt)
          else if b0 = 30 then
            match goSlice b 1 b.length with
            | .error e => .error e
            | .ok rest => .ok (.connData rest)
          else
            match goSlice b (b1 + 2) b.length with
            | .error e => .error e
            | .ok data => .ok (.forward tgt (b0 :: selfId.length % 256 :: (selfId ++ data)))

/-! ## Package `peermap`: the directory and registration -/

/-- Embedding of `networkContext.SetIfAbsent`: returns false and leaves
the directory unchanged when the peer id is present; otherwise inserts. -/
def setIfAbsent (peers : List (List Nat × SrvPeer)) (peerID : List Nat)
    (p : SrvPeer) : Bool × List (List Nat × SrvPeer) :=
  match lookupK peers peerID with
  | some _ => (false, peers)
  | none => (true, peers ++ [(peerID, p)])

/-- Registration-relevant state of the peermap server: the per-network
peer directories and the global peer id to network index (the Go map to
a `*networkContext` modelled by the context's network id). -/
structure RegState where
  networks : List (String × List (List Nat × SrvPeer))
  globalIndex : List (List Nat × String)
deriving DecidableEq, Repr

/-- Embedding of the registration part of
`PeerMap.HandlePeerPacketConnect`, from the network-context lookup (the
context is created when absent) through `SetIfAbsent`, the global index
update and the upgrade: returns the HTTP status (101 on success) and the
resulting state. -/
def handleRegister (st : RegState) (network : String) (peerID : List Nat)
    (p : SrvPeer) (upgradeOk : Bool) : Nat × RegState :=
  let withNet :=
    match lookupK st.networks network with
    | some _ => st
    | none => { st with networks := st.networks ++ [(network, [])] }
  let nctx := (lookupK withNet.networks network).getD []
  match setIfAbsent nctx peerID p with
  | (false, _) => (400, withNet)
  | (true, peers1) =>
    let st2 : RegState :=
      { networks := updateK withNet.networks network peers1,
        globalIndex := putK withNet.globalIndex peerID network }
    if upgradeOk then (101, st2) else (500, st2)

/-- Per-network directory view used by `PeerMap.getPeer`: the network
id, the peer directory (sessions as opaque `Nat` tokens) and the
neighbour network ids. -/
structure NetCtx where
  id : String
  peers : List (List Nat × Nat)
  neighbors : List String
deriving DecidableEq, Repr

/-- State read by `PeerMap.getPeer`: `networkMap` and the global
`peerMap` index from peer id to that peer's network context. -/
structure PeerMapState where
  networkMap : List (String × NetCtx)
  globalMap : List (List Nat × NetCtx)
deriving DecidableEq, Repr

/-- Embedding of `PeerMap.getPeer` (and the `networkContext.getPeer` it
calls): first the caller's network directory, then the global index
accepted only when the found network is a declared neighbour. -/
def pmGetPeer (pm : PeerMapState) (network : String) (peerID : List Nat) :
    Except String Nat :=
  match lookupK pm.networkMap network with
  | some ctx =>
    match lookupK ctx.peers peerID with
    | some p => .ok p
    | none =>
      match lookupK pm.globalMap peerID with
      | some neighNet =>
        if ctx.neighbors.contains neighNet.id then
          match lookupK neighNet.peers peerID with
          | some p => .ok p
          | none => .error "peer not found"
        else .error "peer not found"
      | none => .error "peer not found"
  | none => .error "peer not found"

/-! ## Supporting lemmas -/

theorem lookupK_mem {α β : Type} [DecidableEq α] {m : List (α × β)} {k : α} {v : β}
    (h : lookupK m k = some v) : (k, v) ∈ m := by
  induction m with
  | nil => simp [lookupK] at h
  | cons kv rest ih =>
    obtain ⟨k1, v1⟩ := kv
    rw [lookupK] at h
    by_cases hk : k = k1
    · rw [if_pos hk] at h
      injection h with hv
      subst hk
      subst hv
      exact List.mem_cons_self _ _
    · rw [if_neg hk] at h
      exact List.mem_cons_of_mem _ (ih h)

/-! ## Claim C4: NATType.AccurateThan versus the precision order -/

/-- C4 counterexample: `upnp` and `hard` both belong to the claim's top
precision class, so the claim requires `AccurateThan` to return false on
them, yet the code returns true. -/
theorem c4_accurateThan_counterexample :
    accurateThan "upnp" "hard" = true ∧ specMorePrecise "upnp" "hard" = false ∧
      "upnp" ∈ natTypes ∧ "hard" ∈ natTypes := by
  refine ⟨rfl, rfl, ?_, ?_⟩ <;> simp [natTypes]

/-- C4 amended: for NATTypes `t` and `t1`, `t.AccurateThan(t1)` returns
true iff `t ≠ unknown`, `t ≠ t1`, `t = easy` only against `unknown`, and
`t = hard` only against `unknown` or `easy`; every type other than
`unknown`, `easy` and `hard` (i.e. `upnp`, `ip4`, `ip6`, `internal`) is
treated as more accurate than any distinct type, including other members
of the top class. -/
theorem c4_accurateThan_amended (t t1 : String)
    (ht : t ∈ natTypes) (ht1 : t1 ∈ natTypes) :
    accurateThan t t1 = true ↔
      (t ≠ "" ∧ t ≠ t1 ∧ (t = "easy" → t1 = "") ∧
        (t = "hard" → t1 = "" ∨ t1 = "easy")) := by
  simp only [natTypes, List.mem_cons, List.not_mem_nil, or_false] at ht ht1
  rcases ht with rfl | rfl | rfl | rfl | rfl | rfl | rfl <;>
    rcases ht1 with rfl | rfl | rfl | rfl | rfl | rfl | rfl <;>
      simp [accurateThan]

/-- C4 witness: the amended characterisation applied at `easy` versus
`unknown`. -/
theorem c4_accurateThan_amended_witness :
    accurateThan "easy" "" = true ↔
      (("easy" : String) ≠ "" ∧ ("easy" : String) ≠ "" ∧
        (("easy" : String) = "easy" → ("" : String) = "") ∧
        (("easy" : String) = "hard" → ("" : String) = "" ∨ ("" : String) = "easy")) :=
  c4_accurateThan_amended "easy" "" (by simp [natTypes]) (by simp [natTypes])

/-! ## Claim C5: frame assembly and XOR involution -/

/-- C5: for every control code, target PeerID of length 1..255, payload
and nonce, XORing the frame assembled by `PeerPacketConn.writeTo` with
the nonce a second time yields control code, address length, address,
payload in that order (invariant I3): the obfuscation is an involution. -/
theorem c5_writeToFrame_involution (a : Nat) (tgtPeer p : List Nat) (nonce : Nat)
    (h1 : 1 ≤ tgtPeer.length) (h2 : tgtPeer.length ≤ 255) :
    (writeToFrame a tgtPeer p nonce).map (fun v => v ^^^ nonce) =
      (a :: tgtPeer.length :: tgtPeer) ++ p := by
  have hmod : tgtPeer.length % 256 = tgtPeer.length := Nat.mod_eq_of_lt (by omega)
  unfold writeToFrame
  rw [List.map_map]
  have hxor : ∀ v : Nat, v ^^^ nonce ^^^ nonce = v := by
    intro v
    rw [Nat.xor_assoc, Nat.xor_self, Nat.xor_zero]
  simp [Function.comp_def, hxor, hmod]

/-- C5 witness: the involution at a concrete frame. -/
theorem c5_writeToFrame_involution_witness :
    (writeToFrame 0 [7] [8, 9] 5).map (fun v => v ^^^ 5) =
      (0 :: List.length [7] :: [7]) ++ [8, 9] :=
  c5_writeToFrame_involution 0 [7] [8, 9] 5 (by decide) (by decide)

/-! ## Claim C6: ping round trip and rejection -/

/-- C6: `ParsePing` inverts `NewPing` for PeerIDs of length 1..255, and
returns the empty PeerID on frames not longer than the magic, on frames
longer than `255 + len(magic)`, and on frames not starting with the
magic; the magic defaults to ASCII `_ping` when the `Magic` hook is nil
or returns empty bytes. -/
theorem c6_ping_roundtrip (d : Disco) (id b : List Nat)
    (h1 : 1 ≤ id.length) (h2 : id.length ≤ 255) :
    d.parsePing (d.newPing id) = id
    ∧ (b.length ≤ d.magicBytes.length → d.parsePing b = [])
    ∧ (b.length > 255 + d.magicBytes.length → d.parsePing b = [])
    ∧ (b.take d.magicBytes.length ≠ d.magicBytes → d.parsePing b = [])
    ∧ (d.magicFn = none → d.magicBytes = defaultPingMagic)
    ∧ (d.magicFn = some [] → d.magicBytes = defaultPingMagic) := by
  refine ⟨?_, ?_, ?_, ?_, ?_, ?_⟩
  · unfold Disco.parsePing Disco.newPing
    have hlen : (d.magicBytes ++ id).length = d.magicBytes.length + id.length := by
      simp
    rw [if_neg, if_pos]
    · exact List.drop_left d.magicBytes id
    · exact List.take_left d.magicBytes id
    · rw [hlen]
      push_neg
      omega
  · intro h
    unfold Disco.parsePing
    rw [if_pos (Or.inl h)]
  · intro h
    unfold Disco.parsePing
    rw [if_pos (Or.inr h)]
  · intro h
    unfold Disco.parsePing
    by_cases hl : b.length ≤ d.magicBytes.length ∨ b.length > 255 + d.magicBytes.length
    · rw [if_pos hl]
    · rw [if_neg hl, if_neg h]
  · intro h
    simp [Disco.magicBytes, h]
  · intro h
    simp [Disco.magicBytes, h]

/-- C6 witness: round trip of the default-magic ping for PeerID `[1]`,
and the rejections at the empty frame. -/
theorem c6_ping_roundtrip_witness :
    (Disco.mk none).parsePing ((Disco.mk none).newPing [1]) = [1]
    ∧ (([] : List Nat).length ≤ (Disco.mk none).magicBytes.length →
        (Disco.mk none).parsePing [] = [])
    ∧ (([] : List Nat).length > 255 + (Disco.mk none).magicBytes.length →
        (Disco.mk none).parsePing [] = [])
    ∧ (([] : List Nat).take (Disco.mk none).magicBytes.length ≠ (Disco.mk none).magicBytes →
        (Disco.mk none).parsePing [] = [])
    ∧ ((Disco.mk none).magicFn = none → (Disco.mk none).magicBytes = defaultPingMagic)
    ∧ ((Disco.mk none).magicFn = some [] → (Disco.mk none).magicBytes = defaultPingMagic) :=
  c6_ping_roundtrip (Disco.mk none) [1] [] (by decide) (by decide)

/-! ## Claim C2: malformed (short) frames -/

/-- C2: the de-obfuscated two-byte frame `[0, 5]` advertises an address
length of 5 and is therefore shorter than `2 + b[1]`; neither the
peermap read loop nor the agent's `ReadFrom` checks the length, so both
fault (Go: index out of range panic) instead of dropping the frame with
a warning as the claim states. -/
theorem c2_short_frame_faults :
    serverReadStep [9] (fun _ => none) [0, 5] = .error .indexOutOfRange
    ∧ readFromExtract [0, 5] = .error .indexOutOfRange
    ∧ ([0, 5] : List Nat).length < 2 + 5 := by
  refine ⟨rfl, rfl, by decide⟩

/-! ## Claim C9: the healthcheck sweep -/

/-- C9: one `OP_PEER_HEALTHCHECK` event keeps exactly the peer contexts
whose last-valid timestamp is within `2*keepalive` (each entry kept
verbatim, all fields unchanged), closes exactly the UDP sockets of the
stale contexts, and the sweep timer is re-armed with
`keepalive/2 + 1s`. -/
theorem c9_healthcheck_sweep (now keepalive : Int) (a : Option UDPAddr)
    (cn : Nat) (pid : List Nat) (m : PeersMap) :
    (∀ kv, kv ∈ (handlePeerEvent now keepalive ⟨.healthcheck, a, cn, pid⟩ m).peersMap ↔
      kv ∈ m ∧ now - kv.2.lastValidTime ≤ 2 * keepalive)
    ∧ (∀ c, c ∈ (handlePeerEvent now keepalive ⟨.healthcheck, a, cn, pid⟩ m).closedConns ↔
      ∃ kv, kv ∈ m ∧ now - kv.2.lastValidTime > 2 * keepalive ∧ kv.2.conn = c)
    ∧ healthcheckResetInterval keepalive = keepalive / 2 + nanosPerSecond := by
  refine ⟨?_, ?_, rfl⟩
  · intro kv
    simp [handlePeerEvent, List.mem_filter]
  · intro c
    simp only [handlePeerEvent, List.mem_map, List.mem_filter, decide_eq_true_eq]
    constructor
    · rintro ⟨x, ⟨hx, hstale⟩, hc⟩
      exact ⟨x, hx, hstale, hc⟩
    · rintro ⟨x, hx, hstale, hc⟩
      exact ⟨x, ⟨hx, hstale⟩, hc⟩

/-! ## Claim C10: datagrams from unknown sources -/

theorem getPeerID_eq_nil (m : PeersMap) (now keepalive : Int) (a : UDPAddr)
    (h : ∀ kv ∈ m, ∀ va, kv.2.addr = some va →
      now - kv.2.lastValidTime ≤ 2 * keepalive →
      ¬(va.ip = a.ip ∧ va.port = a.port)) :
    getPeerID m now keepalive (some a) = [] := by
  have hnone : (List.find? (fun kv =>
      match kv.2.addr with
      | none => false
      | some va =>
        decide (now - kv.2.lastValidTime ≤ 2 * keepalive) &&
          decide (va.ip = a.ip) && decide (va.port = a.port)) m) = none := by
    rw [List.find?_eq_none]
    intro kv hkv
    cases haddr : kv.2.addr with
    | none => simp [haddr]
    | some va =>
      simp only [haddr, Bool.and_eq_true, decide_eq_true_eq]
      rintro ⟨⟨hfresh, hip⟩, hport⟩
      exact h kv hkv va haddr hfresh ⟨hip, hport⟩
  simp only [getPeerID, hnone]

/-- C10: a UDP datagram that is neither a `_ping` nor recognised as STUN,
arriving from a source address matched by no live peer context (none with
a non-nil address, a last-valid time within `2*keepalive`, and the same
ip and port), is still enqueued as an inbound frame with a zero-length
source PeerID, and `ReadFrom` then yields the empty address and the raw
datagram as payload. -/
theorem c10_unknown_source_empty_peerid (m : PeersMap) (now keepalive : Int)
    (stunIs : List Nat → Bool) (src : UDPAddr) (data : List Nat)
    (hping : ¬(data.length > 4 ∧ data.take 5 = defaultPingMagic ∧ data.length ≤ 260))
    (hstun : stunIs data = false)
    (hnomatch : ∀ kv ∈ m, ∀ va, kv.2.addr = some va →
      now - kv.2.lastValidTime ≤ 2 * keepalive →
      ¬(va.ip = src.ip ∧ va.port = src.port)) :
    udpLoopBody m now keepalive stunIs src data = .enqueue (0 :: 0 :: data)
    ∧ readFromExtract (0 :: 0 :: data) = .ok ([], data) := by
  have hg := getPeerID_eq_nil m now keepalive src hnomatch
  constructor
  · unfold udpLoopBody
    rw [if_neg hping]
    simp [hstun, hg]
  · have h1 : goIndex (0 :: 0 :: data) 1 = .ok 0 := by
      unfold goIndex
      rw [dif_pos (show 1 < (0 :: 0 :: data).length by simp)]
      rfl
    have h2 : goSlice (0 :: 0 :: data) 2 (0 + 2) = .ok [] := by
      unfold goSlice
      rw [if_pos ⟨by omega, by simp⟩]
      simp
    have h3 : goSlice (0 :: 0 :: data) 2 (data.length + 1 + 1) = .ok data := by
      unfold goSlice
      rw [if_pos ⟨by omega, by simp⟩]
      have hl : (0 :: 0 :: data).length = data.length + 1 + 1 := by simp
      rw [← hl, List.take_length]
      rfl
    simp [readFromExtract, h1, h2, h3]

/-- C10 witness: an unknown-source datagram `[7, 7, 7]` with an empty
peers map. -/
theorem c10_unknown_source_empty_peerid_witness :
    udpLoopBody [] 0 1 (fun _ => false) ⟨[1], 1⟩ [7, 7, 7] =
      .enqueue (0 :: 0 :: [7, 7, 7])
    ∧ readFromExtract (0 :: 0 :: [7, 7, 7]) = .ok ([], [7, 7, 7]) :=
  c10_unknown_source_empty_peerid [] 0 1 (fun _ => false) ⟨[1], 1⟩ [7, 7, 7]
    (by decide) rfl (by intro kv hkv; simp at hkv)

/-! ## Claim C1: the WriteTo routing decision -/

/-- Invariant of the agent's peers map: every context whose last-valid
time is within `2*keepalive` of `now` carries a non-nil UDP address.
It holds in every reachable state because `OP_PEER_CONFIRM` (the only
event that refreshes `LastValidTime`) always also stores the datagram's
non-nil source address, and contexts created by `OP_PEER_DISCO1` start
at the Go zero time. -/
def addrInv (keepalive now : Int) (m : PeersMap) : Prop :=
  ∀ kv ∈ m, now - kv.2.lastValidTime ≤ 2 * keepalive → kv.2.addr ≠ none

theorem addrInv_mono (keepalive now now' : Int) (m : PeersMap)
    (h : now ≤ now') (hinv : addrInv keepalive now m) :
    addrInv keepalive now' m :=
  fun kv hkv hfresh => hinv kv hkv (by omega)

theorem addrInv_nil (keepalive now : Int) : addrInv keepalive now [] := by
  intro kv hkv
  simp at hkv

theorem handlePeerEvent_preserves_addrInv (now keepalive : Int) (e : PeerEvent)
    (m : PeersMap) (hnow : 2 * keepalive < now)
    (haddr : (e.op = .disco2 ∨ e.op = .confirm) → e.addr ≠ none)
    (hinv : addrInv keepalive now m) :
    addrInv keepalive now (handlePeerEvent now keepalive e m).peersMap := by
  obtain ⟨op, a, c, pid⟩ := e
  intro kv hkv hfresh
  cases op with
  | disco1 =>
    simp only [handlePeerEvent] at hkv
    cases hl : lookupK m pid with
    | some old =>
      rw [hl] at hkv
      simp only [List.mem_append, List.mem_singleton] at hkv
      rcases hkv with hkv | hkv
      · exact hinv kv (List.mem_of_mem_filter hkv) hfresh
      · subst hkv
        simp at hfresh
        omega
    | none =>
      rw [hl] at hkv
      simp only [List.mem_append, List.mem_singleton] at hkv
      rcases hkv with hkv | hkv
      · exact hinv kv hkv hfresh
      · subst hkv
        simp at hfresh
        omega
  | disco2 =>
    simp only [handlePeerEvent] at hkv
    cases hl : lookupK m pid with
    | some ctx =>
      rw [hl] at hkv
      simp only [updateK, List.mem_map] at hkv
      obtain ⟨x, hx, hxe⟩ := hkv
      by_cases hk : x.1 = pid
      · rw [if_pos hk] at hxe
        subst hxe
        exact haddr (Or.inl rfl)
      · rw [if_neg hk] at hxe
        subst hxe
        exact hinv x hx hfresh
    | none =>
      rw [hl] at hkv
      exact hinv kv hkv hfresh
  | confirm =>
    simp only [handlePeerEvent] at hkv
    cases hl : lookupK m pid with
    | some ctx =>
      rw [hl] at hkv
      simp only [updateK, List.mem_map] at hkv
      obtain ⟨x, hx, hxe⟩ := hkv
      by_cases hk : x.1 = pid
      · rw [if_pos hk] at hxe
        subst hxe
        exact haddr (Or.inr rfl)
      · rw [if_neg hk] at hxe
        subst hxe
        exact hinv x hx hfresh
    | none =>
      rw [hl] at hkv
      exact hinv kv hkv hfresh
  | healthcheck =>
    simp only [handlePeerEvent] at hkv
    exact hinv kv (List.mem_of_mem_filter hkv) hfresh

/-- C1: when the peers-map invariant holds, `WriteTo(p, addr)` with a
PeerID address sends the payload through the target context's UDP socket
exactly when the target is in the live-UDP set (context present and
last-valid time within `2*keepalive`), and otherwise writes the
nonce-obfuscated RELAY frame (control code 0, address, payload) to the
peermap WebSocket. -/
theorem c1_writeTo_decision (m : PeersMap) (now keepalive : Int) (nonce : Nat)
    (p tgtPeer : List Nat) (hinv : addrInv keepalive now m) :
    (peerConnected m now keepalive tgtPeer = true →
      ∃ ctx a, lookupK m tgtPeer = some ctx ∧ ctx.addr = some a ∧
        pcWriteTo m now keepalive nonce p tgtPeer = .udp ctx.conn a p)
    ∧ (peerConnected m now keepalive tgtPeer = false →
      pcWriteTo m now keepalive nonce p tgtPeer =
        .relay (writeToFrame 0 tgtPeer p nonce)) := by
  constructor
  · intro hc
    have hex : ∃ ctx, lookupK m tgtPeer = some ctx := by
      unfold peerConnected at hc
      cases hl : lookupK m tgtPeer with
      | none =>
        rw [hl] at hc
        simp at hc
      | some ctx => exact ⟨ctx, rfl⟩
    obtain ⟨ctx, hl⟩ := hex
    have hfresh : now - ctx.lastValidTime ≤ 2 * keepalive := by
      unfold peerConnected at hc
      rw [hl] at hc
      simpa using hc
    have hne := hinv (tgtPeer, ctx) (lookupK_mem hl) hfresh
    cases ha : ctx.addr with
    | none => exact absurd ha hne
    | some a =>
      refine ⟨ctx, a, hl, ha, ?_⟩
      simp [pcWriteTo, hc, hl, ha]
  · intro hc
    simp [pcWriteTo, hc]

/-- Concrete peers map for the C1 witness: peer `[2]` validated at
time 0 with UDP address `[9]:9` on socket 5. -/
def mW : PeersMap := [([2], ⟨some ⟨[9], 9⟩, 5, 0, 0⟩)]

/-- C1 witness: a live target (`[2]`, validated at time 0, keepalive 1)
is routed via UDP. -/
theorem c1_writeTo_decision_witness :
    (peerConnected mW 0 1 [2] = true →
      ∃ ctx a, lookupK mW [2] = some ctx ∧ ctx.addr = some a ∧
        pcWriteTo mW 0 1 3 [8] [2] = .udp ctx.conn a [8])
    ∧ (peerConnected mW 0 1 [2] = false →
      pcWriteTo mW 0 1 3 [8] [2] = .relay (writeToFrame 0 [2] [8] 3)) :=
  c1_writeTo_decision mW 0 1 3 [8] [2]
    (by
      intro kv hkv hfresh
      simp only [mW, List.mem_singleton] at hkv
      subst hkv
      simp)

/-! ## Claim C3: NEW_PEER broadcast on session start -/

/-- Peer `alice` for the C3 counterexample: no `silenceMode` metadata. -/
def aliceP : SrvPeer := ⟨[1], [], [], 0⟩

/-- Peer `bob` for the C3 counterexample: no `silenceMode` metadata. -/
def bobP : SrvPeer := ⟨[2], [], [], 0⟩

/-- C3 counterexample: `alice` joins the network that is configured as
`cfg.PublicNetwork` (here `"pub"`); her metadata has no `silenceMode`
and the already-registered peer `bob` has none either, yet `Peer.Start`
sends no NEW_PEER frame in either direction, contradicting the claim. -/
theorem c3_start_broadcast_counterexample :
    aliceP.metaKeys.contains "silenceMode" = false
    ∧ bobP.metaKeys.contains "silenceMode" = false
    ∧ ([2], bobP) ∈ [([2], bobP)]
    ∧ ([2] : List Nat) ≠ aliceP.id
    ∧ peerStartBroadcast "pub" "pub" aliceP [([2], bobP)] = [] := by
  refine ⟨rfl, rfl, List.mem_singleton_self _, by decide, rfl⟩

/-- C3 amended: on `Peer.Start`, NEW_PEER frames are exchanged in both
directions with every already-registered, non-silenced peer of the same
network only when the joining peer's metadata lacks `silenceMode` AND
the session's network differs from the configured `PublicNetwork`; when
the metadata contains `silenceMode`, or the network is the public
network, no NEW_PEER frame is sent in either direction. -/
theorem c3_start_broadcast_amended (publicNetwork network : String) (p : SrvPeer)
    (peers : List (List Nat × SrvPeer)) :
    (p.metaKeys.contains "silenceMode" = true →
      peerStartBroadcast publicNetwork network p peers = [])
    ∧ (publicNetwork = network →
      peerStartBroadcast publicNetwork network p peers = [])
    ∧ (p.metaKeys.contains "silenceMode" = false → publicNetwork ≠ network →
      ∀ kid q, (kid, q) ∈ peers → kid ≠ p.id →
        q.metaKeys.contains "silenceMode" = false →
        (q.id, newPeerFrame p) ∈ peerStartBroadcast publicNetwork network p peers
        ∧ (p.id, newPeerFrame q) ∈ peerStartBroadcast publicNetwork network p peers) := by
  refine ⟨?_, ?_, ?_⟩
  · intro hs
    have hsm : "silenceMode" ∈ p.metaKeys := by simpa using hs
    simp [peerStartBroadcast, hsm]
  · intro hn
    by_cases hs : p.metaKeys.contains "silenceMode" <;>
      simp [peerStartBroadcast, hs, hn]
  · intro hs hn kid q hmem hkid hq
    have hs' : "silenceMode" ∉ p.metaKeys := by simpa using hs
    have hq' : "silenceMode" ∉ q.metaKeys := by simpa using hq
    have hfilter : (kid, q) ∈ peers.filter (fun kv =>
        decide (kv.1 ≠ p.id) && ! kv.2.metaKeys.contains "silenceMode") := by
      rw [List.mem_filter]
      refine ⟨hmem, ?_⟩
      simp [hkid, hq']
    constructor
    · unfold peerStartBroadcast
      rw [if_neg (by simpa using hs'), if_neg hn]
      rw [List.mem_flatMap]
      exact ⟨(kid, q), hfilter, by simp [leadDisco]⟩
    · unfold peerStartBroadcast
      rw [if_neg (by simpa using hs'), if_neg hn]
      rw [List.mem_flatMap]
      exact ⟨(kid, q), hfilter, by simp [leadDisco]⟩

/-- C3 witness: the amended statement at a two-peer network `net1` with
public network `pub`. -/
theorem c3_start_broadcast_amended_witness :
    (aliceP.metaKeys.contains "silenceMode" = true →
      peerStartBroadcast "pub" "net1" aliceP [([2], bobP)] = [])
    ∧ (("pub" : String) = "net1" →
      peerStartBroadcast "pub" "net1" aliceP [([2], bobP)] = [])
    ∧ (aliceP.metaKeys.contains "silenceMode" = false → ("pub" : String) ≠ "net1" →
      ∀ kid q, (kid, q) ∈ [([2], bobP)] → kid ≠ aliceP.id →
        q.metaKeys.contains "silenceMode" = false →
        (q.id, newPeerFrame aliceP) ∈ peerStartBroadcast "pub" "net1" aliceP [([2], bobP)]
        ∧ (aliceP.id, newPeerFrame q) ∈
            peerStartBroadcast "pub" "net1" aliceP [([2], bobP)]) :=
  c3_start_broadcast_amended "pub" "net1" aliceP [([2], bobP)]

/-! ## Claim C7: PeerMap.getPeer resolution -/

/-- C7: `getPeer(n, p)` returns the session registered in network `n`
when present; when `n` exists but lacks `p`, it succeeds exactly when
the global peer index maps `p` to a network listed among `n`'s
neighbours and holding a session for `p`; when `n` itself is unknown it
returns the peer-not-found error. -/
theorem c7_getPeer_resolution (pm : PeerMapState) (n : String) (pid : List Nat) :
    (∀ ctx s, lookupK pm.networkMap n = some ctx →
      lookupK ctx.peers pid = some s → pmGetPeer pm n pid = .ok s)
    ∧ (∀ ctx, lookupK pm.networkMap n = some ctx →
      lookupK ctx.peers pid = none →
      ∀ s, (pmGetPeer pm n pid = .ok s ↔
        ∃ nb, lookupK pm.globalMap pid = some nb ∧ nb.id ∈ ctx.neighbors ∧
          lookupK nb.peers pid = some s))
    ∧ (lookupK pm.networkMap n = none →
      pmGetPeer pm n pid = .error "peer not found") := by
  refine ⟨?_, ?_, ?_⟩
  · intro ctx s hn hp
    simp [pmGetPeer, hn, hp]
  · intro ctx hn hp s
    unfold pmGetPeer
    rw [hn]
    simp only [hp]
    cases hg : lookupK pm.globalMap pid with
    | none =>
      simp
    | some nb =>
      by_cases hnb : nb.id ∈ ctx.neighbors
      · have hc : ctx.neighbors.contains nb.id = true := by simpa using hnb
        cases hq : lookupK nb.peers pid with
        | none => simp [hc, hq, hnb]
        | some s' => simp [hc, hq, hnb, eq_comm]
      · have hc : ctx.neighbors.contains nb.id = false := by simpa using hnb
        simp [hc, hnb]
  · intro hn
    simp [pmGetPeer, hn]

/-- Network context for the C7 witness. -/
def netW : NetCtx := ⟨"net1", [([1], 11)], []⟩

/-- Peermap state for the C7 witness. -/
def pmW : PeerMapState := ⟨[("net1", netW)], [([1], netW)]⟩

/-- C7 witness: resolution in the single-network state `pmW`. -/
theorem c7_getPeer_resolution_witness :
    (∀ ctx s, lookupK pmW.networkMap "net1" = some ctx →
      lookupK ctx.peers [1] = some s → pmGetPeer pmW "net1" [1] = .ok s)
    ∧ (∀ ctx, lookupK pmW.networkMap "net1" = some ctx →
      lookupK ctx.peers [1] = none →
      ∀ s, (pmGetPeer pmW "net1" [1] = .ok s ↔
        ∃ nb, lookupK pmW.globalMap [1] = some nb ∧ nb.id ∈ ctx.neighbors ∧
          lookupK nb.peers [1] = some s))
    ∧ (lookupK pmW.networkMap "net1" = none →
      pmGetPeer pmW "net1" [1] = .error "peer not found") :=
  c7_getPeer_resolution pmW "net1" [1]

/-! ## Claim C8: duplicate peer id rejection -/

/-- C8: when a peer id is already present in a network's directory,
`SetIfAbsent` returns false and leaves the directory untouched, and the
upgrade handler answers HTTP 400 with the whole registration state (the
network directories and the global index, hence the prior session's
entry) unchanged. -/
theorem c8_duplicate_rejected (st : RegState) (network : String) (pid : List Nat)
    (p s : SrvPeer) (peers : List (List Nat × SrvPeer)) (u : Bool)
    (hn : lookupK st.networks network = some peers)
    (hp : lookupK peers pid = some s) :
    setIfAbsent peers pid p = (false, peers)
    ∧ handleRegister st network pid p u = (400, st) := by
  constructor
  · simp [setIfAbsent, hp]
  · simp [handleRegister, hn, setIfAbsent, hp]

/-- Registration state for the C8 witness: peer `[1]` (session `aliceP`)
already registered in `net1`. -/
def regW : RegState := ⟨[("net1", [([1], aliceP)])], [([1], "net1")]⟩

/-- C8 witness: re-registering peer `[1]` in `net1` yields 400 and the
state is unchanged. -/
theorem c8_duplicate_rejected_witness :
    setIfAbsent [([1], aliceP)] [1] bobP = (false, [([1], aliceP)])
    ∧ handleRegister regW "net1" [1] bobP true = (400, regW) :=
  c8_duplicate_rejected regW "net1" [1] bobP aliceP [([1], aliceP)] true rfl rfl
